import Mathlib

/-!
Shallow embedding of the Cloudflare worker `src/worker.js` from
`developeranaz/cloudflare-download-link-stabilizer`, together with proofs
about the request-forwarding pipeline: URL extraction and validation
(`handleRequest`), upstream header policy and response normalization
(`proxyDownload`), the retry engine (`fetchWithRetry`) and filename
derivation (`extractFilename`).

Modelling conventions:
* JS strings are Lean `String`s; most computation happens on `List Char`
  so that every definition reduces structurally (and is decidable).
* The JS `Headers` object is an association list; `hGet`/`hSet` are
  case-insensitive like the web `Headers` API.
* `fetch` is abstracted by an oracle `UpstreamRequest → Nat → Except String Response`
  giving, per attempt index, either a transport-level error (a thrown
  exception, carrying its message) or an HTTP response.  The pipeline
  returns alongside each response the number of fetch attempts performed.
* `Date.now()` is an explicit `now : Nat` parameter.
-/

namespace Worker

/-! ### Case-insensitive header lists (the JS `Headers` object) -/

abbrev HeaderList := List (String × String)

/-- Header-name normalization: the web `Headers` API matches names
case-insensitively (ASCII lowercase). -/
def normName (s : String) : String :=
  String.mk (s.toList.map Char.toLower)

/-- `Headers.get`: first entry whose name matches case-insensitively. -/
def hGet : HeaderList → String → Option String
  | [], _ => none
  | (k, w) :: t, name => if normName k = normName name then some w else hGet t name

/-- `Headers.set`: replace the value of a matching entry, else append. -/
def hSet (hs : HeaderList) (name v : String) : HeaderList :=
  match hs with
  | [] => [(name, v)]
  | (k, w) :: t =>
    if normName k = normName name then (k, v) :: t else (k, w) :: hSet t name v

/-- `Headers.has`. -/
def hHas (hs : HeaderList) (name : String) : Bool :=
  (hGet hs name).isSome

/-- `headers.get(name)` filtered through JS truthiness: `null` and the
empty string are falsy, so only present, non-empty values survive. -/
def truthyGet (hs : HeaderList) (name : String) : Option String :=
  match hGet hs name with
  | some v => if v = "" then none else some v
  | none => none

/-- The copy loop shared by `worker.js` lines 57-62 and 96-101:
for each allowlisted name, copy the source header when its value is
truthy (present and non-empty). -/
def copyHeaders (src : HeaderList) (names : List String) (acc : HeaderList) : HeaderList :=
  names.foldl (fun dst header =>
    match hGet src header with
    | some v => if v ≠ "" then hSet dst header v else dst
    | none => dst) acc

/-! ### Small string helpers (structural replacements for `String` methods,
so that every theorem's terms reduce in the kernel) -/

/-- `pre` is an initial run of `s` (JS `String.prototype.startsWith`). -/
def beginsWithL : List Char → List Char → Bool
  | [], _ => true
  | _ :: _, [] => false
  | a :: asx, b :: bs => a == b && beginsWithL asx bs

/-- JS `s.startsWith(pre)`. -/
def jsStartsWith (s pre : String) : Bool :=
  beginsWithL pre.toList s.toList

/-- JS `s.slice(1)` (the worker only ever slices one leading character). -/
def sliceFrom1 (s : String) : String :=
  String.mk (s.toList.drop 1)

/-- JS `s.includes(c)` for a single-character needle. -/
def jsIncludesChar (s : String) (c : Char) : Bool :=
  s.toList.contains c

/-- JS `String.prototype.split` with a single-character separator. -/
def splitOnChar (c : Char) : List Char → List (List Char)
  | [] => [[]]
  | a :: asx =>
    let r := splitOnChar c asx
    if a == c then [] :: r
    else
      match r with
      | [] => [[a]]
      | x :: xs => (a :: x) :: xs

/-- Decimal rendering of a natural number (JS number-to-string
interpolation for the integer `Date.now()` values the worker prints).
The fuel argument only drives structural termination; `n + 1` digits
always suffice. -/
def natToDecimalGo : Nat → Nat → List Char → List Char
  | _, 0, acc => acc
  | n, fuel + 1, acc =>
    let d := Char.ofNat (48 + n % 10)
    if n < 10 then d :: acc else natToDecimalGo (n / 10) fuel (d :: acc)

/-- JS decimal rendering of a natural number. -/
def natToDecimal (n : Nat) : String :=
  String.mk (natToDecimalGo n (n + 1) [])

/-! ### Percent decoding

`decodeURIComponent` (strict, throws `URIError` on malformed input,
modelled as `none`) and the lenient application/x-www-form-urlencoded
decoding used by `URLSearchParams`.  A token is either a literal
character or a byte coming from a `%XX` escape; multi-byte UTF-8
sequences must consist entirely of escaped bytes. -/

/-- Value of one hex digit, case-insensitive. -/
def hexVal (c : Char) : Option Nat :=
  if '0' ≤ c ∧ c ≤ '9' then some (c.toNat - 48)
  else if 'A' ≤ c ∧ c ≤ 'F' then some (c.toNat - 55)
  else if 'a' ≤ c ∧ c ≤ 'f' then some (c.toNat - 87)
  else none

/-- Strict tokenization: every `%` must begin a `%XX` escape. -/
def pctTokens : List Char → Option (List (Char ⊕ Nat))
  | [] => some []
  | c :: rest =>
    if c = '%' then
      match rest with
      | a :: b :: rest' =>
        match hexVal a, hexVal b with
        | some hi, some lo => (pctTokens rest').map (fun ts => Sum.inr (hi * 16 + lo) :: ts)
        | _, _ => none
      | _ => none
    else (pctTokens rest).map (fun ts => Sum.inl c :: ts)

/-- Lenient tokenization (`URLSearchParams`): a malformed `%` stays a
literal percent sign and scanning continues after it.  The fuel argument
only drives structural termination; the scanned list shrinks at every
step, so fuel equal to the list length suffices. -/
def lenientTokensGo : Nat → List Char → List (Char ⊕ Nat)
  | 0, _ => []
  | _ + 1, [] => []
  | fuel + 1, c :: rest =>
    if c = '%' then
      match rest with
      | a :: b :: rest' =>
        match hexVal a, hexVal b with
        | some hi, some lo => Sum.inr (hi * 16 + lo) :: lenientTokensGo fuel rest'
        | _, _ => Sum.inl '%' :: lenientTokensGo fuel rest
      | _ => Sum.inl '%' :: lenientTokensGo fuel rest
    else Sum.inl c :: lenientTokensGo fuel rest

/-- Lenient tokenization of a full string. -/
def lenientTokens (l : List Char) : List (Char ⊕ Nat) :=
  lenientTokensGo l.length l

/-- A UTF-8 continuation byte. -/
def isCont (b : Nat) : Bool :=
  0x80 ≤ b && b < 0xC0

/-- Strict UTF-8 decoding of a token stream: escaped bytes are decoded
as UTF-8 (rejecting stray continuations, overlong forms, surrogates and
out-of-range code points, exactly the cases where `decodeURIComponent`
throws `URIError`); literal characters pass through. -/
def utf8Decode : List (Char ⊕ Nat) → Option (List Char)
  | [] => some []
  | Sum.inl c :: ts => (utf8Decode ts).map (fun l => c :: l)
  | Sum.inr b :: ts =>
    if b < 0x80 then (utf8Decode ts).map (fun l => Char.ofNat b :: l)
    else if b < 0xC2 then none
    else if b < 0xE0 then
      match ts with
      | Sum.inr b2 :: ts2 =>
        if isCont b2 then
          (utf8Decode ts2).map (fun l => Char.ofNat ((b - 0xC0) * 64 + (b2 - 0x80)) :: l)
        else none
      | _ => none
    else if b < 0xF0 then
      match ts with
      | Sum.inr b2 :: Sum.inr b3 :: ts3 =>
        if isCont b2 && isCont b3 then
          let cp := (b - 0xE0) * 4096 + (b2 - 0x80) * 64 + (b3 - 0x80)
          if cp < 0x800 ∨ (0xD800 ≤ cp ∧ cp ≤ 0xDFFF) then none
          else (utf8Decode ts3).map (fun l => Char.ofNat cp :: l)
        else none
      | _ => none
    else if b < 0xF5 then
      match ts with
      | Sum.inr b2 :: Sum.inr b3 :: Sum.inr b4 :: ts4 =>
        if isCont b2 && isCont b3 && isCont b4 then
          let cp := (b - 0xF0) * 262144 + (b2 - 0x80) * 4096 + (b3 - 0x80) * 64 + (b4 - 0x80)
          if cp < 0x10000 ∨ 0x10FFFF < cp then none
          else (utf8Decode ts4).map (fun l => Char.ofNat cp :: l)
        else none
      | _ => none
    else none

/-- Lenient UTF-8 decoding: malformed byte sequences become U+FFFD and
decoding resynchronizes at the next token (the WHATWG "UTF-8 decode"
used by `URLSearchParams`; the claims never exercise malformed data).
The fuel argument only drives structural termination; every recursive
call shrinks the token list, so fuel equal to the list length suffices. -/
def utf8DecodeLenientGo : Nat → List (Char ⊕ Nat) → List Char
  | 0, _ => []
  | _ + 1, [] => []
  | fuel + 1, Sum.inl c :: ts => c :: utf8DecodeLenientGo fuel ts
  | fuel + 1, Sum.inr b :: ts =>
    if b < 0x80 then Char.ofNat b :: utf8DecodeLenientGo fuel ts
    else if b < 0xC2 then Char.ofNat 0xFFFD :: utf8DecodeLenientGo fuel ts
    else if b < 0xE0 then
      match ts with
      | Sum.inr b2 :: ts2 =>
        if isCont b2 then
          Char.ofNat ((b - 0xC0) * 64 + (b2 - 0x80)) :: utf8DecodeLenientGo fuel ts2
        else Char.ofNat 0xFFFD :: utf8DecodeLenientGo fuel ts
      | _ => Char.ofNat 0xFFFD :: utf8DecodeLenientGo fuel ts
    else if b < 0xF0 then
      match ts with
      | Sum.inr b2 :: Sum.inr b3 :: ts3 =>
        if isCont b2 && isCont b3 then
          let cp := (b - 0xE0) * 4096 + (b2 - 0x80) * 64 + (b3 - 0x80)
          if cp < 0x800 ∨ (0xD800 ≤ cp ∧ cp ≤ 0xDFFF) then
            Char.ofNat 0xFFFD :: utf8DecodeLenientGo fuel ts
          else Char.ofNat cp :: utf8DecodeLenientGo fuel ts3
        else Char.ofNat 0xFFFD :: utf8DecodeLenientGo fuel ts
      | _ => Char.ofNat 0xFFFD :: utf8DecodeLenientGo fuel ts
    else if b < 0xF5 then
      match ts with
      | Sum.inr b2 :: Sum.inr b3 :: Sum.inr b4 :: ts4 =>
        if isCont b2 && isCont b3 && isCont b4 then
          let cp := (b - 0xF0) * 262144 + (b2 - 0x80) * 4096 + (b3 - 0x80) * 64 + (b4 - 0x80)
          if cp < 0x10000 ∨ 0x10FFFF < cp then
            Char.ofNat 0xFFFD :: utf8DecodeLenientGo fuel ts
          else Char.ofNat cp :: utf8DecodeLenientGo fuel ts4
        else Char.ofNat 0xFFFD :: utf8DecodeLenientGo fuel ts
      | _ => Char.ofNat 0xFFFD :: utf8DecodeLenientGo fuel ts
    else Char.ofNat 0xFFFD :: utf8DecodeLenientGo fuel ts

/-- Lenient UTF-8 decoding of a token stream. -/
def utf8DecodeLenient (ts : List (Char ⊕ Nat)) : List Char :=
  utf8DecodeLenientGo ts.length ts

/-- `decodeURIComponent` on character lists. -/
def decodeList (l : List Char) : Option (List Char) :=
  (pctTokens l).bind utf8Decode

/-- JS `decodeURIComponent`; `none` models a thrown `URIError`. -/
def jsDecodeURIComponent (s : String) : Option String :=
  (decodeList s.toList).map String.mk

/-- Characters `encodeURIComponent` leaves unescaped. -/
def isUnreservedURI (c : Char) : Bool :=
  c.isAlpha || c.isDigit ||
    (c == '-' || c == '_' || c == '.' || c == '!' || c == '~' || c == '*' ||
     c == '\x27' || c == '(' || c == ')')

/-- UTF-8 bytes of one code point. -/
def charUtf8 (c : Char) : List Nat :=
  let n := c.toNat
  if n < 0x80 then [n]
  else if n < 0x800 then [0xC0 + n / 64, 0x80 + n % 64]
  else if n < 0x10000 then [0xE0 + n / 4096, 0x80 + (n / 64) % 64, 0x80 + n % 64]
  else [0xF0 + n / 262144, 0x80 + (n / 4096) % 64, 0x80 + (n / 64) % 64, 0x80 + n % 64]

/-- Uppercase hex digit. -/
def hexDigitU (n : Nat) : Char :=
  if n < 10 then Char.ofNat (48 + n) else Char.ofNat (55 + n)

/-- `%XX` escape of one byte. -/
def pctEncodeByte (b : Nat) : List Char :=
  ['%', hexDigitU (b / 16), hexDigitU (b % 16)]

/-- JS `encodeURIComponent`. -/
def jsEncodeURIComponent (s : String) : String :=
  String.mk (s.toList.foldr
    (fun c acc =>
      (if isUnreservedURI c then [c]
       else (charUtf8 c).foldr (fun b a => pctEncodeByte b ++ a) []) ++ acc)
    [])

/-! ### URL parsing

The worker only ever constructs `new URL(...)` / `new Request(...)` on
strings it has already checked to begin with `http://` or `https://`
(worker.js line 30), so the embedding parses exactly the
`scheme://[userinfo@]host[:port][/path][?query][#fragment]` shape of
such URLs: authority up to the first `/`, `?` or `#`, hostname
lowercased with userinfo and port stripped, path kept verbatim (no
percent-decoding, as in the WHATWG `pathname`), query after `?`.
`none` models a thrown `TypeError` (e.g. an empty host). -/

structure URLParts where
  scheme : String
  hostname : String
  pathname : String
  query : String
  deriving DecidableEq, Repr

/-- Last piece of a split (the host-port part after any userinfo). -/
def lastPart (ls : List (List Char)) : List Char :=
  (ls.getLast?).getD []

/-- Parse the part after `scheme://`: authority up to the first `/`,
`?` or `#`; hostname without userinfo/port, lowercased; path (`/` when
absent); query after `?`; fragment dropped.

Known simplification: the WHATWG parser behind `new URL(...)`
additionally percent-encodes non-URL code points in the path and query
(for example `<`, `>` and `"` in a pathname become `%3C`, `%3E`, `%22`)
and treats `\` as a path separator for http(s) URLs; this embedding
keeps those characters verbatim.  No theorem below relies on the
verbatim treatment: the claims use this parser either through an
explicit `parseHttpURL _ = some _` hypothesis or at concrete inputs
containing none of the affected characters, on which both parsers
agree. -/
def parseAfterScheme (scheme : String) (rest : List Char) : Option URLParts :=
  let authority := rest.takeWhile fun c => ¬(c = '/' ∨ c = '?' ∨ c = '#')
  let afterAuth := rest.drop authority.length
  let hostPort := lastPart (splitOnChar '@' authority)
  let host := hostPort.takeWhile (fun c => c ≠ ':')
  let hostname := host.map Char.toLower
  if hostname.isEmpty then none
  else
    let beforeFrag := afterAuth.takeWhile (fun c => c ≠ '#')
    let pathChars := beforeFrag.takeWhile (fun c => c ≠ '?')
    let queryChars := (beforeFrag.drop pathChars.length).drop 1
    some
      { scheme := scheme
        hostname := String.mk hostname
        pathname := String.mk (if pathChars.isEmpty then ['/'] else pathChars)
        query := String.mk queryChars }

/-- Parse an absolute `http(s)` URL; `none` models the constructor throwing. -/
def parseHttpURL (s : String) : Option URLParts :=
  if jsStartsWith s "http://" then parseAfterScheme "http" (s.toList.drop 7)
  else if jsStartsWith s "https://" then parseAfterScheme "https" (s.toList.drop 8)
  else none

/-! ### `URLSearchParams` -/

/-- One form-urlencoded value: `+` means space, then lenient percent and
UTF-8 decoding. -/
def formDecodeValue (l : List Char) : List Char :=
  utf8DecodeLenient (lenientTokens (l.map fun c => if c == '+' then ' ' else c))

/-- `URLSearchParams` pair list: split the query on `&`, drop empty
pieces, split each piece at the first `=`, decode key and value. -/
def parseQueryPairs (q : List Char) : List (List Char × List Char) :=
  (splitOnChar '&' q).filterMap fun piece =>
    if piece.isEmpty then none
    else
      let k := piece.takeWhile (fun c => c ≠ '=')
      let v := (piece.drop k.length).drop 1
      some (formDecodeValue k, formDecodeValue v)

/-- `searchParams.get(name)`: decoded value of the first pair whose key
matches, `none` for JS `null`. -/
def searchParamsGet (q : List Char) (name : String) : Option (List Char) :=
  ((parseQueryPairs q).find? (fun kv => kv.1 == name.toList)).map (·.2)

/-! ### Filename extraction (worker.js lines 163-204) -/

/-- The characters `extractFilename` replaces with `_`
(worker.js line 188). -/
def forbiddenChars : List Char :=
  ['<', '>', ':', '"', '/', '\\', '|', '?', '*']

/-- `filename.replace(/[<>:"\/\\|?*]/g, '_')` at the character level. -/
def sanitizeChars (l : List Char) : List Char :=
  l.map fun c => if c ∈ forbiddenChars then '_' else c

/-- `hostname.replace(/[^a-zA-Z0-9.-]/g, '_')`: keep ASCII letters,
digits, dot and hyphen. -/
def hostKeep (c : Char) : Bool :=
  c.isAlpha || c.isDigit || c == '.' || c == '-'

/-- Sanitized hostname used by the fallback filename. -/
def sanitizeHost (s : String) : String :=
  String.mk (s.toList.map fun c => if hostKeep c then c else '_')

/-- The query parameters scanned for a filename, in priority order
(worker.js line 176). -/
def filenameParams : List String :=
  ["filename", "file", "name", "download"]

/-- The scan of worker.js lines 177-183: the first parameter whose value
is truthy and contains a dot. -/
def scanFilenameParams (q : List Char) : Option (List Char) :=
  (filenameParams.filterMap fun p =>
    match searchParamsGet q p with
    | some v => if ¬v.isEmpty ∧ v.contains '.' then some v else none
    | none => none).head?

/-- Worker.js lines 169-170: last non-empty segment of the path
(`undefined`, i.e. `none`, for a bare `/`). -/
def pathCandidate (pathname : List Char) : Option (List Char) :=
  ((splitOnChar '/' pathname).filter fun seg => ¬seg.isEmpty).getLast?

/-- Worker.js lines 170-184: the path candidate, replaced by the first
dotted query-parameter value when it is missing or has no dot. -/
def chooseCandidate (pathname query : List Char) : Option (List Char) :=
  let fname0 := pathCandidate pathname
  if fname0.isNone ∨ ¬(fname0.getD []).contains '.' then
    match scanFilenameParams query with
    | some v => some v
    | none => fname0
  else fname0

/-- Worker.js lines 186-203: sanitize and percent-decode the candidate
(`none` decode failure is the thrown `URIError` reaching the `catch`),
falling back to the hostname-based name when no dotted name results. -/
def finishCandidate (urlObj : URLParts) (now : Nat) : Option (List Char) → String
  | none => "download_" ++ sanitizeHost urlObj.hostname ++ "_" ++ natToDecimal now
  | some f =>
    match decodeList (sanitizeChars f) with
    | none => "download_" ++ natToDecimal now
    | some f2 =>
      if f2.isEmpty ∨ ¬f2.contains '.' then
        "download_" ++ sanitizeHost urlObj.hostname ++ "_" ++ natToDecimal now
      else String.mk f2

/-- `extractFilename(url)` (worker.js lines 163-204), with `Date.now()`
as the explicit `now` parameter.  `none` values model JS `undefined`;
the outer `try`/`catch` corresponds to the two failure branches
(`new URL` throwing, and `decodeURIComponent` throwing on the sanitized
candidate). -/
def extractFilename (url : String) (now : Nat) : String :=
  match parseHttpURL url with
  | none => "download_" ++ natToDecimal now
  | some urlObj =>
    finishCandidate urlObj now (chooseCandidate urlObj.pathname.toList urlObj.query.toList)

/-- The `Content-Disposition` value built at worker.js line 111. -/
def contentDispositionValue (filename : String) : String :=
  "attachment; filename=\"" ++ filename ++ "\"; filename*=UTF-8\x27\x27" ++
    jsEncodeURIComponent filename

/-! ### Requests, responses and the fetch oracle -/

/-- An HTTP response (the JS `Response`): status, status text, headers
and an optional body (`none` is the JS `null` body; a body stream is an
opaque string of bytes). -/
structure Response where
  status : Nat
  statusText : String
  headers : HeaderList
  body : Option String
  deriving DecidableEq, Repr

/-- The inbound request as `handleRequest` observes it: method, the
`url.pathname` of the request URL, headers, and an optional body. -/
structure JsRequest where
  method : String
  pathname : String
  headers : HeaderList
  body : Option String
  deriving DecidableEq, Repr

/-- The upstream `new Request(targetUrl, ...)` built at worker.js
lines 67-72. -/
structure UpstreamRequest where
  url : String
  method : String
  headers : HeaderList
  body : Option String
  deriving DecidableEq, Repr

/-- A fetch oracle: for the upstream request and an attempt index,
either a transport-level failure (the message of the thrown error) or
an HTTP response.  This abstracts the network. -/
abbrev FetchOracle := UpstreamRequest → Nat → Except String Response

/-- JS `response.ok`: status in the range 200-299. -/
def responseOk (r : Response) : Bool :=
  200 ≤ r.status && r.status ≤ 299

/-- A `new Response(body, { status })` with a string body: the `Response`
constructor attaches `Content-Type: text/plain;charset=UTF-8` to string
bodies, and `statusText` defaults to the empty string. -/
def plainResponse (status : Nat) (body : String) : Response :=
  { status := status
    statusText := ""
    headers := [("content-type", "text/plain;charset=UTF-8")]
    body := some body }

/-- The static HTML shell returned for the root path (worker.js
`getInterface`, lines 206-458).  The spec places this presentational
page out of scope ("a thin presentational shell with no algorithmic
content"), and no claim depends on its content, so the embedding keeps
only the fact that the root route serves an HTML document. -/
def getInterface : String :=
  "<!DOCTYPE html>"

/-! ### `fetchWithRetry` (worker.js lines 136-161)

`fetchWithRetryGo fetchFn i rem` runs the loop body at index `i` with
`rem` retries remaining; it returns the result, the number of fetch
attempts performed, and the list of backoff sleeps in milliseconds
(`Math.pow(2, i) * 1000`, executed only when a failed attempt still has
retries left). -/

def fetchWithRetryGo (fetchFn : Nat → Except String Response) :
    Nat → Nat → Except String Response × Nat × List Nat
  | i, rem =>
    match fetchFn i with
    | Except.ok r => (Except.ok r, 1, [])
    | Except.error e =>
      match rem with
      | 0 => (Except.error e, 1, [])
      | rem' + 1 =>
        let rest := fetchWithRetryGo fetchFn (i + 1) rem'
        (rest.1, rest.2.1 + 1, (2 ^ i * 1000) :: rest.2.2)

/-- `fetchWithRetry(request, maxRetries)`: attempts `0..maxRetries`,
returning the first transport-level response, or the last error once
attempts are exhausted. -/
def fetchWithRetry (fetchFn : Nat → Except String Response) (maxRetries : Nat) :
    Except String Response × Nat × List Nat :=
  fetchWithRetryGo fetchFn 0 maxRetries

/-! ### `proxyDownload` (worker.js lines 42-134) -/

/-- The request-header allowlist of worker.js lines 47-55. -/
def relevantHeaders : List String :=
  ["range", "user-agent", "accept", "accept-encoding", "cache-control",
   "if-modified-since", "if-none-match"]

/-- The response-header allowlist of worker.js lines 85-94. -/
def importantHeaders : List String :=
  ["content-type", "content-length", "content-range", "accept-ranges",
   "last-modified", "etag", "cache-control", "expires"]

/-- Worker.js lines 44-65: copy the allowlisted inbound headers whose
values are truthy, then unconditionally overwrite `User-Agent`. -/
def buildUpstreamHeaders (inbound : HeaderList) : HeaderList :=
  hSet (copyHeaders inbound relevantHeaders []) "User-Agent"
    "Cloudflare-Download-Link-Stabilizer/1.0"

/-- Worker.js lines 67-72: the upstream request; the body is forwarded
only for non-GET methods. -/
def buildUpstreamRequest (originalRequest : JsRequest) (targetUrl : String) : UpstreamRequest :=
  { url := targetUrl
    method := originalRequest.method
    headers := buildUpstreamHeaders originalRequest.headers
    body := if originalRequest.method ≠ "GET" then originalRequest.body else none }

/-- The message of the error thrown at worker.js line 78. -/
def upstreamErrMsg (response : Response) : String :=
  "Upstream server responded with " ++ natToDecimal response.status ++ ": " ++
    response.statusText

/-- Worker.js lines 82-118: copy the allowlisted upstream headers,
default `accept-ranges` to `bytes`, set `Content-Disposition` from the
extracted filename when it is truthy, then the four CORS headers. -/
def buildResponseHeaders (upstream : HeaderList) (targetUrl : String) (now : Nat) : HeaderList :=
  let responseHeaders := copyHeaders upstream importantHeaders []
  let responseHeaders :=
    if ¬hHas responseHeaders "accept-ranges" then hSet responseHeaders "accept-ranges" "bytes"
    else responseHeaders
  let filename := extractFilename targetUrl now
  let responseHeaders :=
    if filename ≠ "" then
      hSet responseHeaders "Content-Disposition" (contentDispositionValue filename)
    else responseHeaders
  let responseHeaders := hSet responseHeaders "Access-Control-Allow-Origin" "*"
  let responseHeaders := hSet responseHeaders "Access-Control-Allow-Methods" "GET, HEAD, OPTIONS"
  let responseHeaders := hSet responseHeaders "Access-Control-Allow-Headers" "Range, Content-Type"
  hSet responseHeaders "Access-Control-Expose-Headers"
    "Content-Length, Content-Range, Accept-Ranges, Content-Disposition"

/-- `proxyDownload(originalRequest, targetUrl)` (worker.js lines 42-134).
Returns the thrown error or the built response, together with the number
of upstream fetch attempts made.  `new Request` with an unparsable URL
throws before any fetch (0 attempts); the message text of that platform
`TypeError` is not observed by any claim. -/
def proxyDownload (originalRequest : JsRequest) (targetUrl : String) (oracle : FetchOracle)
    (now : Nat) : Except String Response × Nat :=
  match parseHttpURL targetUrl with
  | none => (Except.error "Failed to parse URL", 0)
  | some _ =>
    let upstreamRequest := buildUpstreamRequest originalRequest targetUrl
    match fetchWithRetry (oracle upstreamRequest) 3 with
    | (Except.error e, attempts, _) => (Except.error e, attempts)
    | (Except.ok response, attempts, _) =>
      if !responseOk response && response.status != 206 then
        (Except.error (upstreamErrMsg response), attempts)
      else
        let responseHeaders := buildResponseHeaders response.headers targetUrl now
        if originalRequest.method = "OPTIONS" then
          (Except.ok
            { status := 200, statusText := "", headers := responseHeaders, body := none },
            attempts)
        else
          (Except.ok
            { status := response.status, statusText := response.statusText
              headers := responseHeaders, body := response.body },
            attempts)

/-! ### `handleRequest` (worker.js lines 5-40) -/

/-- `handleRequest(request)`: the top-level handler.  The second
component counts upstream fetch attempts (zero when the pipeline returns
before any network call). -/
def handleRequest (request : JsRequest) (oracle : FetchOracle) (now : Nat) : Response × Nat :=
  if request.pathname = "/" then
    ({ status := 200, statusText := "", headers := [("Content-Type", "text/html")]
       body := some getInterface }, 0)
  else
    let targetUrl := sliceFrom1 request.pathname
    if targetUrl = "" then (plainResponse 400 "No URL provided", 0)
    else
      match jsDecodeURIComponent targetUrl with
      | none => (plainResponse 400 "Invalid URL encoding", 0)
      | some decodedUrl =>
        if !jsStartsWith decodedUrl "http://" && !jsStartsWith decodedUrl "https://" then
          (plainResponse 400 "Invalid URL - must start with http:// or https://", 0)
        else
          match proxyDownload request decodedUrl oracle now with
          | (Except.ok r, n) => (r, n)
          | (Except.error msg, n) => (plainResponse 500 ("Proxy error: " ++ msg), n)

/-- Headers of a pipeline result (`[]` for a thrown error); used to
state header properties of the response `proxyDownload` builds. -/
def respHeaders : Except String Response → HeaderList
  | Except.ok r => r.headers
  | Except.error _ => []

/-! ## Lemmas about the header model -/

theorem hGet_hSet (hs : HeaderList) (n v m : String) :
    hGet (hSet hs n v) m = if normName m = normName n then some v else hGet hs m := by
  induction hs with
  | nil =>
    simp only [hSet, hGet]
    by_cases h : normName m = normName n
    · rw [if_pos h, if_pos h.symm]
    · rw [if_neg h, if_neg (fun hh => h hh.symm)]
  | cons kv t ih =>
    obtain ⟨k, w⟩ := kv
    simp only [hSet]
    by_cases hk : normName k = normName n
    · rw [if_pos hk]
      simp only [hGet]
      by_cases hm : normName m = normName n
      · rw [if_pos (hk.trans hm.symm), if_pos hm]
      · have hkm : ¬normName k = normName m := fun hh => hm (hh.symm.trans hk)
        rw [if_neg hkm, if_neg hm, if_neg hkm]
    · rw [if_neg hk]
      simp only [hGet, ih]
      by_cases hkm : normName k = normName m
      · have hm : ¬normName m = normName n := fun h => hk (hkm.trans h)
        rw [if_pos hkm, if_neg hm, if_pos hkm]
      · by_cases hm : normName m = normName n
        · rw [if_neg hkm, if_pos hm, if_pos hm]
        · rw [if_neg hkm, if_neg hm, if_neg hm, if_neg hkm]

theorem hGet_congr (hs : HeaderList) {m n : String} (h : normName m = normName n) :
    hGet hs m = hGet hs n := by
  induction hs with
  | nil => rfl
  | cons kv t ih => simp [hGet, h, ih]

theorem truthyGet_congr (hs : HeaderList) {m n : String} (h : normName m = normName n) :
    truthyGet hs m = truthyGet hs n := by
  simp [truthyGet, hGet_congr hs h]

/-- One step of the copy loop. -/
theorem hGet_copyStep (src acc : HeaderList) (header n : String) :
    hGet (match hGet src header with
          | some v => if v ≠ "" then hSet acc header v else acc
          | none => acc) n =
      if normName n = normName header then
        match truthyGet src n with
        | some v => some v
        | none => hGet acc n
      else hGet acc n := by
  by_cases h : normName n = normName header
  · have hs : hGet src header = hGet src n := hGet_congr src h.symm
    rw [if_pos h]
    simp only [truthyGet]
    cases hv : hGet src n with
    | none => rw [hs, hv]
    | some v =>
      by_cases hemp : v = ""
      · rw [hs, hv]
        simp [hemp]
      · rw [hs, hv]
        simp only [hemp, if_false, ne_eq, not_false_iff, if_true]
        rw [hGet_hSet, if_pos h]
  · rw [if_neg h]
    cases hv : hGet src header with
    | none => rfl
    | some v =>
      by_cases hemp : v = ""
      · simp [hemp]
      · simp only [hemp, ne_eq, not_false_iff, if_true]
        rw [hGet_hSet, if_neg h]

/-- Observational description of the shared copy loop: a name in the
allowlist gets the source's truthy value when there is one, anything
else falls through to the accumulator. -/
theorem hGet_copyHeaders (src : HeaderList) (names : List String) (acc : HeaderList)
    (n : String) :
    hGet (copyHeaders src names acc) n =
      if normName n ∈ names.map normName then
        match truthyGet src n with
        | some v => some v
        | none => hGet acc n
      else hGet acc n := by
  induction names generalizing acc with
  | nil => simp [copyHeaders]
  | cons header rest ih =>
    have hstep := hGet_copyStep src acc header n
    simp only [copyHeaders, List.foldl_cons] at *
    rw [ih]
    by_cases hmem : normName n ∈ rest.map normName
    · have hmem' : normName n ∈ (header :: rest).map normName := by
        simp only [List.map_cons, List.mem_cons]
        exact Or.inr hmem
      rw [if_pos hmem, if_pos hmem']
      cases hv : truthyGet src n with
      | some v => rfl
      | none =>
        rw [hstep]
        by_cases h : normName n = normName header
        · rw [if_pos h, hv]
        · rw [if_neg h]
    · rw [if_neg hmem, hstep]
      by_cases h : normName n = normName header
      · have hmem' : normName n ∈ (header :: rest).map normName := by
          simp only [List.map_cons, List.mem_cons]
          exact Or.inl h
        rw [if_pos h, if_pos hmem']
      · have hmem' : ¬normName n ∈ (header :: rest).map normName := by
          simp only [List.map_cons, List.mem_cons]
          push_neg
          exact ⟨h, hmem⟩
        rw [if_neg h, if_neg hmem']

/-! ## Lemmas about the retry loop -/

/-- Shifting the backoff-sleep list by one attempt. -/
theorem sleeps_shift (start rem : Nat) :
    2 ^ start * 1000 :: ((List.range rem).map fun j => 2 ^ (start + 1 + j) * 1000) =
      (List.range (rem + 1)).map fun j => 2 ^ (start + j) * 1000 := by
  rw [List.range_succ_eq_map, List.map_cons, List.map_map]
  refine congrArg₂ _ (by norm_num) (List.map_congr_left fun j _ => ?_)
  show 2 ^ (start + 1 + j) * 1000 = 2 ^ (start + Nat.succ j) * 1000
  have h : start + 1 + j = start + Nat.succ j := by omega
  rw [h]

/-- A loop whose every attempt fails at the transport level runs all
remaining attempts, sleeps `2^i * 1000` ms after each failed attempt
that still has retries left, and ends with the last attempt's error. -/
theorem fetchWithRetryGo_allFail (fetchFn : Nat → Except String Response) (f : Nat → String)
    (hfail : ∀ i, fetchFn i = Except.error (f i)) (rem : Nat) :
    ∀ start : Nat,
      fetchWithRetryGo fetchFn start rem =
        (Except.error (f (start + rem)), rem + 1,
          (List.range rem).map fun j => 2 ^ (start + j) * 1000) := by
  induction rem with
  | zero =>
    intro start
    simp [fetchWithRetryGo, hfail start]
  | succ rem' ih =>
    intro start
    simp only [fetchWithRetryGo, hfail start, ih (start + 1)]
    refine congrArg₂ Prod.mk ?_ (congrArg₂ Prod.mk rfl ?_)
    · have h : start + 1 + rem' = start + (rem' + 1) := by omega
      rw [h]
    · exact sleeps_shift start rem'

/-- If attempts `0..i-1` fail at the transport level and attempt `i`
obtains a response, the loop stops there: `i + 1` attempts and `i`
backoff sleeps, whatever the response's status. -/
theorem fetchWithRetryGo_firstOk (fetchFn : Nat → Except String Response) (r : Response) :
    ∀ (i rem start : Nat), i ≤ rem →
      (∀ j, j < i → ∃ e, fetchFn (start + j) = Except.error e) →
      fetchFn (start + i) = Except.ok r →
      fetchWithRetryGo fetchFn start rem =
        (Except.ok r, i + 1, (List.range i).map fun j => 2 ^ (start + j) * 1000) := by
  intro i
  induction i with
  | zero =>
    intro rem start _ _ hok
    simp only [Nat.add_zero] at hok
    cases rem with
    | zero => simp [fetchWithRetryGo, hok]
    | succ rem' => simp [fetchWithRetryGo, hok]
  | succ i' ih =>
    intro rem start hle hb hok
    obtain ⟨e, he⟩ := hb 0 (Nat.succ_pos i')
    simp only [Nat.add_zero] at he
    cases rem with
    | zero => omega
    | succ rem' =>
      have hb' : ∀ j, j < i' → ∃ e, fetchFn (start + 1 + j) = Except.error e := by
        intro j hj
        have := hb (j + 1) (by omega)
        have harith : start + (j + 1) = start + 1 + j := by omega
        rwa [harith] at this
      have hok' : fetchFn (start + 1 + i') = Except.ok r := by
        have harith : start + (i' + 1) = start + 1 + i' := by omega
        rwa [harith] at hok
      simp only [fetchWithRetryGo, he, ih rem' (start + 1) (by omega) hb' hok']
      exact congrArg₂ Prod.mk rfl (congrArg₂ Prod.mk rfl (sleeps_shift start i'))

/-! ## Decimal digits are never forbidden characters -/

theorem natToDecimalGo_chars (fuel : Nat) :
    ∀ (n : Nat) (acc : List Char), ∀ c ∈ natToDecimalGo n fuel acc,
      c ∈ acc ∨ ∃ k, k < 10 ∧ c = Char.ofNat (48 + k) := by
  induction fuel with
  | zero => intro n acc c hc; exact Or.inl hc
  | succ fuel' ih =>
    intro n acc c hc
    simp only [natToDecimalGo] at hc
    by_cases hn : n < 10
    · rw [if_pos hn] at hc
      rcases List.mem_cons.mp hc with h | h
      · exact Or.inr ⟨n % 10, Nat.mod_lt n (by omega), h⟩
      · exact Or.inl h
    · rw [if_neg hn] at hc
      rcases ih (n / 10) (Char.ofNat (48 + n % 10) :: acc) c hc with h | h
      · rcases List.mem_cons.mp h with h' | h'
        · exact Or.inr ⟨n % 10, Nat.mod_lt n (by omega), h'⟩
        · exact Or.inl h'
      · exact Or.inr h

theorem natToDecimalGo_nil (fuel : Nat) :
    ∀ (n : Nat) (acc : List Char), natToDecimalGo n fuel acc = [] → acc = [] := by
  induction fuel with
  | zero => intro n acc h; exact h
  | succ fuel' ih =>
    intro n acc h
    simp only [natToDecimalGo] at h
    by_cases hn : n < 10
    · rw [if_pos hn] at h
      exact absurd h (by simp)
    · rw [if_neg hn] at h
      have := ih (n / 10) _ h
      exact absurd this (by simp)

theorem natToDecimal_ne_empty (n : Nat) : natToDecimal n ≠ "" := by
  intro h
  have hdata : natToDecimalGo n (n + 1) [] = [] := by
    have := congrArg String.data h
    simpa [natToDecimal] using this
  simp only [natToDecimalGo] at hdata
  by_cases hn : n < 10
  · rw [if_pos hn] at hdata
    exact absurd hdata (by simp)
  · rw [if_neg hn] at hdata
    exact absurd (natToDecimalGo_nil n (n / 10) _ hdata) (by simp)

theorem digit_not_forbidden (k : Nat) (hk : k < 10) :
    Char.ofNat (48 + k) ∉ forbiddenChars := by
  interval_cases k <;> decide

theorem natToDecimal_chars_not_forbidden (n : Nat) :
    ∀ c ∈ (natToDecimal n).toList, c ∉ forbiddenChars := by
  intro c hc
  have := natToDecimalGo_chars (n + 1) n [] c (by simpa [natToDecimal] using hc)
  rcases this with h | ⟨k, hk, hkc⟩
  · exact absurd h (by simp)
  · exact hkc ▸ digit_not_forbidden k hk

/-! ## Sanitization facts -/

theorem sanitizeChars_not_forbidden (l : List Char) :
    ∀ c ∈ sanitizeChars l, c ∉ forbiddenChars := by
  intro c hc
  obtain ⟨a, _, haeq⟩ := List.mem_map.mp hc
  by_cases hf : a ∈ forbiddenChars
  · rw [if_pos hf] at haeq
    rw [← haeq]
    decide
  · rw [if_neg hf] at haeq
    exact haeq ▸ hf

theorem hostKeep_not_forbidden (c : Char) (h : hostKeep c = true) : c ∉ forbiddenChars := by
  intro hmem
  fin_cases hmem <;> exact absurd h (by decide)

theorem sanitizeHost_chars_not_forbidden (s : String) :
    ∀ c ∈ (sanitizeHost s).toList, c ∉ forbiddenChars := by
  intro c hc
  obtain ⟨a, _, haeq⟩ := List.mem_map.mp (by simpa [sanitizeHost] using hc)
  by_cases hk : hostKeep a
  · rw [if_pos hk] at haeq
    exact haeq ▸ hostKeep_not_forbidden a hk
  · rw [if_neg hk] at haeq
    rw [← haeq]
    decide

theorem download_chars_not_forbidden (c : Char)
    (hc : c ∈ ['d', 'o', 'w', 'n', 'l', 'o', 'a', 'd', '_']) : c ∉ forbiddenChars := by
  fin_cases hc <;> decide

/-- `String.toList` distributes over append. -/
theorem toList_append (s t : String) : (s ++ t).toList = s.toList ++ t.toList := by
  obtain ⟨sd⟩ := s
  obtain ⟨td⟩ := t
  rfl

/-- Characters of the `download_<host>_<now>` fallback are never
forbidden. -/
theorem fallbackHost_not_forbidden (host : String) (now : Nat) :
    ∀ c ∈ ("download_" ++ sanitizeHost host ++ "_" ++ natToDecimal now).toList,
      c ∉ forbiddenChars := by
  intro c hc
  rw [toList_append, toList_append, toList_append] at hc
  rcases List.mem_append.mp hc with hx | hx
  · rcases List.mem_append.mp hx with hy | hy
    · rcases List.mem_append.mp hy with hz | hz
      · exact download_chars_not_forbidden c hz
      · exact sanitizeHost_chars_not_forbidden host c hz
    · have h1 : c = '_' := List.mem_singleton.mp hy
      rw [h1]
      decide
  · exact natToDecimal_chars_not_forbidden now c hx

/-- `finishCandidate` never returns the empty string: the sanitized
candidate survives only when it is non-empty, and every fallback starts
with `download_`. -/
theorem finishCandidate_ne_empty (urlObj : URLParts) (now : Nat) (cand : Option (List Char)) :
    finishCandidate urlObj now cand ≠ "" := by
  have happend : ∀ (a b : String), a.toList ≠ [] → a ++ b ≠ "" := by
    intro a b ha he
    have := congrArg String.toList he
    rw [toList_append] at this
    exact ha (List.append_eq_nil.mp this).1
  have hdl : ∀ b : String, "download_" ++ b ≠ "" := fun b =>
    happend _ b (by decide)
  have hdlHost : "download_" ++ sanitizeHost urlObj.hostname ++ "_" ++ natToDecimal now ≠ "" := by
    refine happend _ _ ?_
    rw [toList_append, toList_append]
    intro hnil
    have := (List.append_eq_nil.mp hnil).1
    exact absurd (List.append_eq_nil.mp this).1 (by decide)
  cases cand with
  | none => exact hdlHost
  | some f =>
    simp only [finishCandidate]
    cases hdec : decodeList (sanitizeChars f) with
    | none => exact hdl _
    | some f2 =>
      show (if f2.isEmpty = true ∨ ¬f2.contains '.' = true then
        "download_" ++ sanitizeHost urlObj.hostname ++ "_" ++ natToDecimal now
        else String.mk f2) ≠ ""
      by_cases hif : f2.isEmpty = true ∨ ¬f2.contains '.' = true
      · rw [if_pos hif]
        exact hdlHost
      · rw [if_neg hif]
        intro he
        have he' : f2 = [] := congrArg String.data he
        push_neg at hif
        exact hif.1 (by simp [he'])

/-- `extractFilename` always returns a non-empty string. -/
theorem extractFilename_ne_empty (url : String) (now : Nat) :
    extractFilename url now ≠ "" := by
  simp only [extractFilename]
  cases hparse : parseHttpURL url with
  | none =>
    intro he
    have := congrArg String.toList he
    rw [toList_append] at this
    exact absurd (List.append_eq_nil.mp this).1 (by decide)
  | some urlObj => exact finishCandidate_ne_empty urlObj now _

/-! ## Lemmas about the built response headers -/

/-- Looking up a name different from the key of a conditional `set`
passes through. -/
theorem hGet_condSet (hs : HeaderList) (cond : Prop) [Decidable cond] (k v n : String)
    (hne : ¬normName n = normName k) :
    hGet (if cond then hSet hs k v else hs) n = hGet hs n := by
  split
  · rw [hGet_hSet, if_neg hne]
  · rfl

/-- The allowlisted upstream response headers never collide with the
headers `proxyDownload` sets afterwards. -/
theorem important_not_special (name : String) (hmem : name ∈ importantHeaders) :
    ¬normName name = normName "Access-Control-Expose-Headers" ∧
      ¬normName name = normName "Access-Control-Allow-Headers" ∧
      ¬normName name = normName "Access-Control-Allow-Methods" ∧
      ¬normName name = normName "Access-Control-Allow-Origin" ∧
      ¬normName name = normName "Content-Disposition" := by
  fin_cases hmem <;> decide

/-- The four CORS headers are always present in the built response
headers, with their fixed values. -/
theorem brh_cors (upstream : HeaderList) (t : String) (now : Nat) :
    hGet (buildResponseHeaders upstream t now) "Access-Control-Allow-Origin" = some "*" ∧
      hGet (buildResponseHeaders upstream t now) "Access-Control-Allow-Methods" =
        some "GET, HEAD, OPTIONS" ∧
      hGet (buildResponseHeaders upstream t now) "Access-Control-Allow-Headers" =
        some "Range, Content-Type" ∧
      hGet (buildResponseHeaders upstream t now) "Access-Control-Expose-Headers" =
        some "Content-Length, Content-Range, Accept-Ranges, Content-Disposition" := by
  simp only [buildResponseHeaders]
  refine ⟨?_, ?_, ?_, ?_⟩
  · rw [hGet_hSet, if_neg (by decide), hGet_hSet, if_neg (by decide), hGet_hSet,
      if_neg (by decide), hGet_hSet, if_pos (by decide)]
  · rw [hGet_hSet, if_neg (by decide), hGet_hSet, if_neg (by decide), hGet_hSet,
      if_pos (by decide)]
  · rw [hGet_hSet, if_neg (by decide), hGet_hSet, if_pos (by decide)]
  · rw [hGet_hSet, if_pos (by decide)]

/-- The built response headers always carry the `Content-Disposition`
attachment header for the extracted filename (the JS truthiness guard is
always taken because `extractFilename` never returns the empty
string). -/
theorem brh_contentDisposition (upstream : HeaderList) (t : String) (now : Nat) :
    hGet (buildResponseHeaders upstream t now) "Content-Disposition" =
      some (contentDispositionValue (extractFilename t now)) := by
  simp only [buildResponseHeaders]
  rw [hGet_hSet, if_neg (by decide), hGet_hSet, if_neg (by decide), hGet_hSet,
    if_neg (by decide), hGet_hSet, if_neg (by decide)]
  rw [if_pos (extractFilename_ne_empty t now)]
  rw [hGet_hSet, if_pos (by decide)]

/-- An allowlisted upstream header that is present with a non-empty
value appears unchanged in the built response headers. -/
theorem brh_passthrough (upstream : HeaderList) (t : String) (now : Nat) (name v : String)
    (hmem : name ∈ importantHeaders) (hv : hGet upstream name = some v) (hne : v ≠ "") :
    hGet (buildResponseHeaders upstream t now) name = some v := by
  have hspec := important_not_special name hmem
  have hZ : hGet (copyHeaders upstream importantHeaders []) name = some v := by
    rw [hGet_copyHeaders, if_pos (List.mem_map_of_mem normName hmem)]
    simp [truthyGet, hv, hne]
  simp only [buildResponseHeaders]
  rw [hGet_hSet, if_neg hspec.1, hGet_hSet, if_neg hspec.2.1, hGet_hSet,
    if_neg hspec.2.2.1, hGet_hSet, if_neg hspec.2.2.2.1]
  rw [hGet_condSet _ _ _ _ _ hspec.2.2.2.2]
  by_cases har : normName name = normName "accept-ranges"
  · have hhas : hHas (copyHeaders upstream importantHeaders []) "accept-ranges" = true := by
      rw [hHas, hGet_congr _ har.symm, hZ]
      rfl
    rw [if_neg (not_not_intro hhas)]
    exact hZ
  · rw [hGet_condSet _ _ _ _ _ har]
    exact hZ

/-- When the upstream had no `accept-ranges` header, the built response
headers force it to `bytes`. -/
theorem brh_acceptRanges_default (upstream : HeaderList) (t : String) (now : Nat)
    (h : hGet upstream "accept-ranges" = none) :
    hGet (buildResponseHeaders upstream t now) "accept-ranges" = some "bytes" := by
  have hZ : hGet (copyHeaders upstream importantHeaders []) "accept-ranges" = none := by
    rw [hGet_copyHeaders, if_pos (by decide)]
    simp [truthyGet, h, hGet]
  simp only [buildResponseHeaders]
  rw [hGet_hSet, if_neg (by decide), hGet_hSet, if_neg (by decide), hGet_hSet,
    if_neg (by decide), hGet_hSet, if_neg (by decide)]
  rw [hGet_condSet _ _ _ _ _ (by decide)]
  have hhas : ¬hHas (copyHeaders upstream importantHeaders []) "accept-ranges" = true := by
    rw [hHas, hZ]
    simp
  rw [if_pos hhas, hGet_hSet, if_pos rfl]

/-! ## Unfolding the handler on a validated target -/

/-- On a non-root path whose target decodes and passes the scheme check,
the handler is exactly the `proxyDownload` pipeline with the 500-wrapper
for thrown errors. -/
theorem handleRequest_proxy (req : JsRequest) (oracle : FetchOracle) (now : Nat) (d : String)
    (hroot : req.pathname ≠ "/")
    (hdec : jsDecodeURIComponent (sliceFrom1 req.pathname) = some d)
    (hscheme : jsStartsWith d "http://" = true ∨ jsStartsWith d "https://" = true) :
    handleRequest req oracle now =
      match proxyDownload req d oracle now with
      | (Except.ok r, n) => (r, n)
      | (Except.error msg, n) => (plainResponse 500 ("Proxy error: " ++ msg), n) := by
  have hne : sliceFrom1 req.pathname ≠ "" := by
    intro h0
    rw [h0] at hdec
    have hd : d = "" := by
      have : (some "" : Option String) = some d := hdec
      injection this with h'
      exact h'.symm
    rcases hscheme with h | h <;> rw [hd] at h <;> exact absurd h (by decide)
  have hcond : (!jsStartsWith d "http://" && !jsStartsWith d "https://") = false := by
    rcases hscheme with h | h <;> simp [h]
  simp only [handleRequest, if_neg hroot, if_neg hne, hdec, hcond]
  rw [if_neg (by simp)]

/-- `proxyDownload` on a fetch that yields a success-status response:
the upstream response is relayed (status 200 and empty body for
OPTIONS), under the built headers, with the loop's attempt count. -/
theorem proxyDownload_ok (req : JsRequest) (t : String) (oracle : FetchOracle) (now : Nat)
    (u : URLParts) (r : Response) (n : Nat) (sl : List Nat)
    (hparse : parseHttpURL t = some u)
    (hfetch : fetchWithRetry (oracle (buildUpstreamRequest req t)) 3 = (Except.ok r, n, sl))
    (hgood : responseOk r = true ∨ r.status = 206) :
    proxyDownload req t oracle now =
      (Except.ok
        (if req.method = "OPTIONS" then
          { status := 200, statusText := ""
            headers := buildResponseHeaders r.headers t now, body := none }
        else
          { status := r.status, statusText := r.statusText
            headers := buildResponseHeaders r.headers t now, body := r.body }), n) := by
  have hc : (!responseOk r && r.status != 206) = false := by
    rcases hgood with h | h <;> simp [h]
  simp only [proxyDownload, hparse, hfetch, hc]
  by_cases hm : req.method = "OPTIONS" <;> simp [hm]

/-- `proxyDownload` on a fetch that yields a response whose status is
neither 2xx nor 206 throws the upstream-error message. -/
theorem proxyDownload_badStatus (req : JsRequest) (t : String) (oracle : FetchOracle)
    (now : Nat) (u : URLParts) (r : Response) (n : Nat) (sl : List Nat)
    (hparse : parseHttpURL t = some u)
    (hfetch : fetchWithRetry (oracle (buildUpstreamRequest req t)) 3 = (Except.ok r, n, sl))
    (hbad : responseOk r = false ∧ r.status ≠ 206) :
    proxyDownload req t oracle now = (Except.error (upstreamErrMsg r), n) := by
  have hc : (!responseOk r && r.status != 206) = true := by
    simp [hbad.1, hbad.2]
  simp only [proxyDownload, hparse, hfetch, hc]
  simp

/-- `proxyDownload` propagates a transport-level failure of the retry
loop unchanged. -/
theorem proxyDownload_fetchError (req : JsRequest) (t : String) (oracle : FetchOracle)
    (now : Nat) (u : URLParts) (e : String) (n : Nat) (sl : List Nat)
    (hparse : parseHttpURL t = some u)
    (hfetch : fetchWithRetry (oracle (buildUpstreamRequest req t)) 3 =
      (Except.error e, n, sl)) :
    proxyDownload req t oracle now = (Except.error e, n) := by
  simp only [proxyDownload, hparse, hfetch]

/-! ## The claims -/

/-- Claim C3: when every attempt fails at the transport level,
`fetchWithRetry` with `maxRetries = R` performs exactly `R + 1` fetch
attempts, sleeps `2^i` seconds (`2^i * 1000` ms) after failed attempt
`i` for `i = 0 .. R-1` (no sleep after the last attempt), propagates the
error of the last attempt, and the handler (which calls the loop with
`maxRetries = 3`, hence 4 attempts) surfaces that error to the client as
an HTTP 500 `Proxy error: ...` response. -/
theorem claim_C3 (fetchFn : Nat → Except String Response) (f : Nat → String) (R : Nat)
    (hfail : ∀ i, fetchFn i = Except.error (f i))
    (req : JsRequest) (oracle : FetchOracle) (g : UpstreamRequest → Nat → String)
    (horacle : ∀ ureq i, oracle ureq i = Except.error (g ureq i))
    (now : Nat) (d : String) (u : URLParts)
    (hroot : req.pathname ≠ "/")
    (hdec : jsDecodeURIComponent (sliceFrom1 req.pathname) = some d)
    (hscheme : jsStartsWith d "http://" = true ∨ jsStartsWith d "https://" = true)
    (hparse : parseHttpURL d = some u) :
    fetchWithRetry fetchFn R =
      (Except.error (f R), R + 1, (List.range R).map fun i => 2 ^ i * 1000) ∧
    handleRequest req oracle now =
      (plainResponse 500 ("Proxy error: " ++ g (buildUpstreamRequest req d) 3), 4) := by
  constructor
  · rw [fetchWithRetry, fetchWithRetryGo_allFail fetchFn f hfail R 0]
    simp
  · rw [handleRequest_proxy req oracle now d hroot hdec hscheme]
    have hfetch : fetchWithRetry (oracle (buildUpstreamRequest req d)) 3 =
        (Except.error (g (buildUpstreamRequest req d) 3), 4, [1000, 2000, 4000]) := by
      rw [fetchWithRetry, fetchWithRetryGo_allFail (oracle (buildUpstreamRequest req d))
        (g (buildUpstreamRequest req d)) (fun i => horacle _ i) 3 0]
      refine congrArg₂ Prod.mk rfl (congrArg₂ Prod.mk rfl ?_)
      decide
    rw [proxyDownload_fetchError req d oracle now u _ _ _ hparse hfetch]

/-- Claim C3, witness: a concrete always-failing oracle with `R = 2`
makes 3 attempts with sleeps 1s and 2s and ends with attempt 2's error;
through the handler (4 attempts) the last error surfaces as a 500. -/
theorem claim_C3_witness :
    fetchWithRetry (fun i => Except.error ("e" ++ natToDecimal i)) 2 =
      (Except.error "e2", 3, [1000, 2000]) ∧
    handleRequest
      { method := "GET", pathname := "/https%3A%2F%2Fa.com%2Ff.bin",
        headers := [], body := none }
      (fun _ i => Except.error ("e" ++ natToDecimal i)) 0 =
      (plainResponse 500 "Proxy error: e3", 4) := by
  have h := claim_C3 (fun i => Except.error ("e" ++ natToDecimal i))
    (fun i => "e" ++ natToDecimal i) 2 (fun _ => rfl)
    { method := "GET", pathname := "/https%3A%2F%2Fa.com%2Ff.bin",
      headers := [], body := none }
    (fun _ i => Except.error ("e" ++ natToDecimal i)) (fun _ i => "e" ++ natToDecimal i)
    (fun _ _ => rfl) 0 "https://a.com/f.bin"
    { scheme := "https", hostname := "a.com", pathname := "/f.bin", query := "" }
    (by decide) (by decide) (Or.inr (by decide)) (by decide)
  exact ⟨h.1, h.2⟩

/-- Claim C4: `fetchWithRetry` returns the first response obtained at
the transport level, whatever its HTTP status: if attempts before `i`
threw and attempt `i` yields a response `r`, the loop returns `r`
immediately after `i + 1` attempts, with backoff sleeps only for the `i`
failed attempts. -/
theorem claim_C4 (fetchFn : Nat → Except String Response) (R i : Nat) (r : Response)
    (hle : i ≤ R) (hb : ∀ j, j < i → ∃ e, fetchFn j = Except.error e)
    (hok : fetchFn i = Except.ok r) :
    fetchWithRetry fetchFn R =
      (Except.ok r, i + 1, (List.range i).map fun j => 2 ^ j * 1000) := by
  rw [fetchWithRetry, fetchWithRetryGo_firstOk fetchFn r i R 0 hle
    (by intro j hj; simpa using hb j hj) (by simpa using hok)]
  simp

/-- Claim C4, witness: attempts 0 and 1 throw, attempt 2 yields an HTTP
404 response; the 404 is returned at once (3 attempts, sleeps 1s, 2s),
not retried. -/
theorem claim_C4_witness :
    fetchWithRetry
      (fun i => if i < 2 then Except.error "t"
        else Except.ok
          { status := 404, statusText := "Not Found", headers := [], body := some "nope" }) 3 =
      (Except.ok
        { status := 404, statusText := "Not Found", headers := [], body := some "nope" },
        3, [1000, 2000]) := by
  have h := claim_C4
    (fun i => if i < 2 then Except.error "t"
      else Except.ok
        { status := 404, statusText := "Not Found", headers := [], body := some "nope" }) 3 2
    { status := 404, statusText := "Not Found", headers := [], body := some "nope" }
    (by decide) (fun j hj => ⟨"t", by interval_cases j <;> rfl⟩) rfl
  exact h

/-- Claim C5: on a non-root path, an empty path segment, a failing
percent-decode, or a decoded target without the exact `http://` or
`https://` prefix each yield the corresponding 400 plain-text response,
with zero upstream fetch attempts.  (The bare root path `/` is routed to
the HTML shell before this validation, so it is excluded.) -/
theorem claim_C5 (req : JsRequest) (oracle : FetchOracle) (now : Nat)
    (hroot : req.pathname ≠ "/") :
    (sliceFrom1 req.pathname = "" →
      handleRequest req oracle now = (plainResponse 400 "No URL provided", 0)) ∧
    (jsDecodeURIComponent (sliceFrom1 req.pathname) = none →
      handleRequest req oracle now = (plainResponse 400 "Invalid URL encoding", 0)) ∧
    (∀ d, sliceFrom1 req.pathname ≠ "" →
      jsDecodeURIComponent (sliceFrom1 req.pathname) = some d →
      jsStartsWith d "http://" = false → jsStartsWith d "https://" = false →
      handleRequest req oracle now =
        (plainResponse 400 "Invalid URL - must start with http:// or https://", 0)) := by
  refine ⟨?_, ?_, ?_⟩
  · intro hempty
    simp only [handleRequest, if_neg hroot, hempty, eq_self_iff_true, if_true]
  · intro hdec
    have hne : sliceFrom1 req.pathname ≠ "" := by
      intro h0
      rw [h0] at hdec
      exact absurd hdec (by decide)
    simp only [handleRequest, if_neg hroot, if_neg hne, hdec]
  · intro d hne hdec h1 h2
    simp only [handleRequest, if_neg hroot, if_neg hne, hdec, h1, h2]
    rfl

/-- Claim C5, witness: a decoded target with an `ftp://` scheme produces
the scheme-explanation 400 with zero fetch attempts; a malformed escape
produces the encoding 400. -/
theorem claim_C5_witness :
    handleRequest
      { method := "GET", pathname := "/ftp%3A%2F%2Fh%2Ff", headers := [], body := none }
      (fun _ _ => Except.error "never") 0 =
      (plainResponse 400 "Invalid URL - must start with http:// or https://", 0) ∧
    handleRequest
      { method := "GET", pathname := "/%zz", headers := [], body := none }
      (fun _ _ => Except.error "never") 0 =
      (plainResponse 400 "Invalid URL encoding", 0) := by
  constructor
  · exact (claim_C5
      { method := "GET", pathname := "/ftp%3A%2F%2Fh%2Ff", headers := [], body := none }
      (fun _ _ => Except.error "never") 0 (by decide)).2.2 "ftp://h/f"
      (by decide) (by decide) (by decide) (by decide)
  · exact (claim_C5
      { method := "GET", pathname := "/%zz", headers := [], body := none }
      (fun _ _ => Except.error "never") 0 (by decide)).2.1 (by decide)

/-- Claim C7: `extractFilename` is deterministic for a fixed URL and
clock (it is a function of exactly those two arguments), and on the
spec's examples it returns `report.pdf`, `movie.mp4`, and
`download_a.com_<now>` respectively; the fourth equation exhibits the
priority order of the query parameters (`file` is scanned before
`name`). -/
theorem claim_C7 (now : Nat) :
    extractFilename "https://a.com/path/report.pdf" now = "report.pdf" ∧
    extractFilename "https://a.com/download?filename=movie.mp4" now = "movie.mp4" ∧
    extractFilename "https://a.com/" now = "download_a.com_" ++ natToDecimal now ∧
    extractFilename "https://a.com/d?name=a.b&file=c.d" now = "c.d" :=
  ⟨rfl, rfl, rfl, rfl⟩

/-- Claim C8: the upstream request's headers are exactly the allowlisted
inbound headers that are present with a non-empty value (matched
case-insensitively), with `User-Agent` unconditionally overwritten to
the fixed proxy string; every other name is absent. -/
theorem claim_C8 (req : JsRequest) (t : String) (n : String) :
    hGet (buildUpstreamRequest req t).headers n =
      if normName n = normName "User-Agent" then
        some "Cloudflare-Download-Link-Stabilizer/1.0"
      else if normName n ∈ relevantHeaders.map normName then truthyGet req.headers n
      else none := by
  simp only [buildUpstreamRequest, buildUpstreamHeaders]
  rw [hGet_hSet]
  by_cases hua : normName n = normName "User-Agent"
  · rw [if_pos hua, if_pos hua]
  · rw [if_neg hua, if_neg hua, hGet_copyHeaders]
    by_cases hmem : normName n ∈ relevantHeaders.map normName
    · rw [if_pos hmem, if_pos hmem]
      cases htr : truthyGet req.headers n with
      | none => rfl
      | some v => rfl
    · rw [if_neg hmem, if_neg hmem]
      rfl

/-- Claim C1, counterexample: an OPTIONS request to a valid target does
invoke the upstream fetch — with an upstream that answers the first
attempt, the handler performs exactly one fetch attempt, not zero (the
path decodes to the valid target `https://a.com/f.bin` and the request
method is OPTIONS, so the claim's premises hold). -/
theorem claim_C1_counterexample :
    jsDecodeURIComponent (sliceFrom1 "/https%3A%2F%2Fa.com%2Ff.bin") =
      some "https://a.com/f.bin" ∧
    (handleRequest
      { method := "OPTIONS", pathname := "/https%3A%2F%2Fa.com%2Ff.bin",
        headers := [], body := none }
      (fun _ _ => Except.ok
        { status := 200, statusText := "OK", headers := [], body := some "D" }) 0).2 = 1 ∧
    ¬(handleRequest
      { method := "OPTIONS", pathname := "/https%3A%2F%2Fa.com%2Ff.bin",
        headers := [], body := none }
      (fun _ _ => Except.ok
        { status := 200, statusText := "OK", headers := [], body := some "D" }) 0).2 = 0 := by
  refine ⟨by decide, rfl, by decide⟩

/-- Claim C1 (amended): for an OPTIONS request whose path decodes to a
valid http(s) target, the upstream fetch IS invoked (here: the first
attempt returns a response, so exactly one attempt is made); when that
response has a success status (2xx or 206), the handler returns status
200 with a null body and all four CORS headers set. -/
theorem claim_C1_amended (req : JsRequest) (oracle : FetchOracle) (now : Nat) (d : String)
    (u : URLParts) (r : Response)
    (hmethod : req.method = "OPTIONS")
    (hroot : req.pathname ≠ "/")
    (hdec : jsDecodeURIComponent (sliceFrom1 req.pathname) = some d)
    (hscheme : jsStartsWith d "http://" = true ∨ jsStartsWith d "https://" = true)
    (hparse : parseHttpURL d = some u)
    (horacle : ∀ ureq, oracle ureq 0 = Except.ok r)
    (hgood : responseOk r = true ∨ r.status = 206) :
    (handleRequest req oracle now).1.status = 200 ∧
    (handleRequest req oracle now).1.body = none ∧
    hGet (handleRequest req oracle now).1.headers "Access-Control-Allow-Origin" = some "*" ∧
    hGet (handleRequest req oracle now).1.headers "Access-Control-Allow-Methods" =
      some "GET, HEAD, OPTIONS" ∧
    hGet (handleRequest req oracle now).1.headers "Access-Control-Allow-Headers" =
      some "Range, Content-Type" ∧
    hGet (handleRequest req oracle now).1.headers "Access-Control-Expose-Headers" =
      some "Content-Length, Content-Range, Accept-Ranges, Content-Disposition" ∧
    (handleRequest req oracle now).2 = 1 := by
  have hfetch : fetchWithRetry (oracle (buildUpstreamRequest req d)) 3 =
      (Except.ok r, 1, []) := by
    rw [fetchWithRetry]
    simp only [fetchWithRetryGo, horacle]
  have hpd := proxyDownload_ok req d oracle now u r 1 [] hparse hfetch hgood
  rw [if_pos hmethod] at hpd
  have hhr := handleRequest_proxy req oracle now d hroot hdec hscheme
  rw [hpd] at hhr
  rw [hhr]
  obtain ⟨h1, h2, h3, h4⟩ := brh_cors r.headers d now
  exact ⟨rfl, rfl, h1, h2, h3, h4, rfl⟩

/-- Claim C1 (amended), witness: concrete OPTIONS request to
`https://a.com/f.bin` with a 200 upstream: status 200, null body, the
four CORS headers, one fetch attempt. -/
theorem claim_C1_witness :
    (handleRequest
      { method := "OPTIONS", pathname := "/https%3A%2F%2Fa.com%2Ff.bin",
        headers := [], body := none }
      (fun _ _ => Except.ok
        { status := 200, statusText := "OK", headers := [], body := some "D" }) 0).1.status =
      200 ∧
    (handleRequest
      { method := "OPTIONS", pathname := "/https%3A%2F%2Fa.com%2Ff.bin",
        headers := [], body := none }
      (fun _ _ => Except.ok
        { status := 200, statusText := "OK", headers := [], body := some "D" }) 0).1.body =
      none ∧
    hGet (handleRequest
      { method := "OPTIONS", pathname := "/https%3A%2F%2Fa.com%2Ff.bin",
        headers := [], body := none }
      (fun _ _ => Except.ok
        { status := 200, statusText := "OK", headers := [], body := some "D" }) 0).1.headers
      "Access-Control-Allow-Origin" = some "*" ∧
    (handleRequest
      { method := "OPTIONS", pathname := "/https%3A%2F%2Fa.com%2Ff.bin",
        headers := [], body := none }
      (fun _ _ => Except.ok
        { status := 200, statusText := "OK", headers := [], body := some "D" }) 0).2 = 1 := by
  have h := claim_C1_amended
    { method := "OPTIONS", pathname := "/https%3A%2F%2Fa.com%2Ff.bin",
      headers := [], body := none }
    (fun _ _ => Except.ok
      { status := 200, statusText := "OK", headers := [], body := some "D" }) 0
    "https://a.com/f.bin"
    { scheme := "https", hostname := "a.com", pathname := "/f.bin", query := "" }
    { status := 200, statusText := "OK", headers := [], body := some "D" }
    rfl (by decide) (by decide) (Or.inr (by decide)) (by decide) (fun _ => rfl)
    (Or.inl (by decide))
  exact ⟨h.1, h.2.1, h.2.2.1, h.2.2.2.2.2.2⟩

/-- Claim C2, counterexample to the stated "if and only if": an upstream
response with status 500 and empty status text lies outside the success
set, yet the handler's 500 response carries exactly that status code and
status text, so "outgoing has the upstream's own status and status text"
does not imply "upstream status is 2xx or 206". -/
theorem claim_C2_counterexample :
    (handleRequest
      { method := "GET", pathname := "/https%3A%2F%2Fa.com%2Ff.bin",
        headers := [], body := none }
      (fun _ _ => Except.ok
        { status := 500, statusText := "", headers := [], body := some "x" }) 0).1.status =
      (500 : Nat) ∧
    (handleRequest
      { method := "GET", pathname := "/https%3A%2F%2Fa.com%2Ff.bin",
        headers := [], body := none }
      (fun _ _ => Except.ok
        { status := 500, statusText := "", headers := [], body := some "x" }) 0).1.statusText =
      "" ∧
    ¬(responseOk
        { status := 500, statusText := "", headers := [], body := some "x" } = true ∨
      Response.status
        { status := 500, statusText := "", headers := [], body := some "x" } = 206) := by
  refine ⟨rfl, rfl, by decide⟩

/-- Claim C2 (amended): for a non-OPTIONS request that reaches the
upstream fetch and obtains a response `r`: when `r.status` is 2xx or
206, the handler relays `r`'s status, status text and body; for any
other status the handler responds 500 with the plain-text body
`Proxy error: Upstream server responded with <status>: <statusText>`. -/
theorem claim_C2_amended (req : JsRequest) (oracle : FetchOracle) (now : Nat) (d : String)
    (u : URLParts) (r : Response) (n : Nat) (sl : List Nat)
    (hmethod : req.method ≠ "OPTIONS")
    (hroot : req.pathname ≠ "/")
    (hdec : jsDecodeURIComponent (sliceFrom1 req.pathname) = some d)
    (hscheme : jsStartsWith d "http://" = true ∨ jsStartsWith d "https://" = true)
    (hparse : parseHttpURL d = some u)
    (hfetch : fetchWithRetry (oracle (buildUpstreamRequest req d)) 3 =
      (Except.ok r, n, sl)) :
    ((responseOk r = true ∨ r.status = 206) →
      (handleRequest req oracle now).1.status = r.status ∧
      (handleRequest req oracle now).1.statusText = r.statusText ∧
      (handleRequest req oracle now).1.body = r.body) ∧
    (responseOk r = false ∧ r.status ≠ 206 →
      (handleRequest req oracle now).1.status = 500 ∧
      (handleRequest req oracle now).1.body =
        some ("Proxy error: Upstream server responded with " ++ natToDecimal r.status ++
          ": " ++ r.statusText)) := by
  have hhr := handleRequest_proxy req oracle now d hroot hdec hscheme
  constructor
  · intro hgood
    have hpd := proxyDownload_ok req d oracle now u r n sl hparse hfetch hgood
    rw [if_neg hmethod] at hpd
    rw [hpd] at hhr
    rw [hhr]
    exact ⟨rfl, rfl, rfl⟩
  · intro hbad
    have hpd := proxyDownload_badStatus req d oracle now u r n sl hparse hfetch hbad
    rw [hpd] at hhr
    rw [hhr]
    exact ⟨rfl, rfl⟩

/-- Claim C2 (amended), witness: a GET through the proxy with a 200
upstream relays status, status text and body. -/
theorem claim_C2_witness :
    (handleRequest
      { method := "GET", pathname := "/https%3A%2F%2Fa.com%2Ff.bin",
        headers := [], body := none }
      (fun _ _ => Except.ok
        { status := 200, statusText := "OK", headers := [], body := some "DATA" }) 0).1.status =
      200 ∧
    (handleRequest
      { method := "GET", pathname := "/https%3A%2F%2Fa.com%2Ff.bin",
        headers := [], body := none }
      (fun _ _ => Except.ok
        { status := 200, statusText := "OK", headers := [],
          body := some "DATA" }) 0).1.statusText = "OK" ∧
    (handleRequest
      { method := "GET", pathname := "/https%3A%2F%2Fa.com%2Ff.bin",
        headers := [], body := none }
      (fun _ _ => Except.ok
        { status := 200, statusText := "OK", headers := [], body := some "DATA" }) 0).1.body =
      some "DATA" := by
  have h := (claim_C2_amended
    { method := "GET", pathname := "/https%3A%2F%2Fa.com%2Ff.bin",
      headers := [], body := none }
    (fun _ _ => Except.ok
      { status := 200, statusText := "OK", headers := [], body := some "DATA" }) 0
    "https://a.com/f.bin"
    { scheme := "https", hostname := "a.com", pathname := "/f.bin", query := "" }
    { status := 200, statusText := "OK", headers := [], body := some "DATA" } 1 []
    (by decide) (by decide) (by decide) (Or.inr (by decide)) (by decide) rfl).1
    (Or.inl (by decide))
  exact h

/-- Claim C6, counterexample: sanitization replaces forbidden characters
BEFORE percent-decoding, so a percent-encoded forbidden character
survives: `https://a.com/file%2Fname.pdf` yields `file/name.pdf`, which
contains the forbidden character `/`. -/
theorem claim_C6_counterexample :
    extractFilename "https://a.com/file%2Fname.pdf" 0 = "file/name.pdf" ∧
    '/' ∈ (extractFilename "https://a.com/file%2Fname.pdf" 0).toList ∧
    '/' ∈ forbiddenChars := by
  refine ⟨rfl, by decide, by decide⟩

/-- Claim C6 (amended): `extractFilename` never fails and always returns
a non-empty string, and the sanitization step does replace each of the
characters `< > : " / \ | ? *` with `_` (so the candidate is
filesystem-safe at that point, and the `download_<host>_<now>` fallback
is always filesystem-safe); but because the percent-decode of
worker.js line 190 runs AFTER that replacement, `%XX` escapes — written
explicitly in the URL, or introduced by `new URL`'s own percent-encoding
of characters such as `<`, `>`, `"` in the pathname — can reintroduce
forbidden characters, so the returned filename is NOT guaranteed
filesystem-safe. -/
theorem claim_C6_amended (url : String) (now : Nat) (candidate : List Char) (host : String) :
    extractFilename url now ≠ "" ∧
      (∀ c ∈ sanitizeChars candidate, c ∉ forbiddenChars) ∧
      (∀ c ∈ ("download_" ++ sanitizeHost host ++ "_" ++ natToDecimal now).toList,
        c ∉ forbiddenChars) :=
  ⟨extractFilename_ne_empty url now, sanitizeChars_not_forbidden candidate,
    fallbackHost_not_forbidden host now⟩

/-- Claim C9, counterexample: an upstream header that is present with an
EMPTY value is not passed through unchanged — JS truthiness drops it,
and for `accept-ranges` the forced `bytes` default even replaces it:
upstream `accept-ranges: ""` becomes outgoing `accept-ranges: bytes`. -/
theorem claim_C9_counterexample :
    hGet [("accept-ranges", "")] "accept-ranges" = some "" ∧
    hGet (respHeaders (proxyDownload
      { method := "GET", pathname := "/x", headers := [], body := none }
      "https://a.com/f.bin"
      (fun _ _ => Except.ok
        { status := 200, statusText := "OK", headers := [("accept-ranges", "")],
          body := some "D" }) 0).1) "accept-ranges" = some "bytes" ∧
    (some "bytes" : Option String) ≠ some "" := by
  refine ⟨rfl, rfl, by decide⟩

/-- Claim C9 (amended): for a successful upstream response, each
allowlisted header that is present upstream WITH A NON-EMPTY VALUE
appears unchanged in the outgoing response, and when `accept-ranges` is
absent upstream the outgoing response carries `accept-ranges: bytes`. -/
theorem claim_C9_amended (req : JsRequest) (t : String) (oracle : FetchOracle) (now : Nat)
    (u : URLParts) (r : Response) (n : Nat) (sl : List Nat)
    (hparse : parseHttpURL t = some u)
    (hfetch : fetchWithRetry (oracle (buildUpstreamRequest req t)) 3 =
      (Except.ok r, n, sl))
    (hgood : responseOk r = true ∨ r.status = 206) :
    (∀ name v, name ∈ importantHeaders → hGet r.headers name = some v → v ≠ "" →
      hGet (respHeaders (proxyDownload req t oracle now).1) name = some v) ∧
    (hGet r.headers "accept-ranges" = none →
      hGet (respHeaders (proxyDownload req t oracle now).1) "accept-ranges" =
        some "bytes") := by
  have hpd := proxyDownload_ok req t oracle now u r n sl hparse hfetch hgood
  have hhead : respHeaders (proxyDownload req t oracle now).1 =
      buildResponseHeaders r.headers t now := by
    rw [hpd]
    by_cases hm : req.method = "OPTIONS"
    · rw [if_pos hm]
      rfl
    · rw [if_neg hm]
      rfl
  rw [hhead]
  exact ⟨fun name v hmem hv hne => brh_passthrough r.headers t now name v hmem hv hne,
    fun har => brh_acceptRanges_default r.headers t now har⟩

/-- Claim C9 (amended), witness: an upstream 200 with
`Content-Range: bytes 0-99/1000` and no `accept-ranges` yields an
outgoing response with that Content-Range unchanged and
`accept-ranges: bytes`. -/
theorem claim_C9_witness :
    hGet (respHeaders (proxyDownload
      { method := "GET", pathname := "/x", headers := [], body := none }
      "https://a.com/f.bin"
      (fun _ _ => Except.ok
        { status := 200, statusText := "OK",
          headers := [("Content-Range", "bytes 0-99/1000")], body := some "D" }) 0).1)
      "content-range" = some "bytes 0-99/1000" ∧
    hGet (respHeaders (proxyDownload
      { method := "GET", pathname := "/x", headers := [], body := none }
      "https://a.com/f.bin"
      (fun _ _ => Except.ok
        { status := 200, statusText := "OK",
          headers := [("Content-Range", "bytes 0-99/1000")], body := some "D" }) 0).1)
      "accept-ranges" = some "bytes" := by
  have h := claim_C9_amended
    { method := "GET", pathname := "/x", headers := [], body := none }
    "https://a.com/f.bin"
    (fun _ _ => Except.ok
      { status := 200, statusText := "OK",
        headers := [("Content-Range", "bytes 0-99/1000")], body := some "D" }) 0
    { scheme := "https", hostname := "a.com", pathname := "/f.bin", query := "" }
    { status := 200, statusText := "OK",
      headers := [("Content-Range", "bytes 0-99/1000")], body := some "D" } 1 []
    (by decide) rfl (Or.inl (by decide))
  exact ⟨h.1 "content-range" "bytes 0-99/1000" (by decide) (by decide) (by decide),
    h.2 (by decide)⟩

/-- Claim C10: `extractFilename` always returns a non-empty string, so
the truthiness guard before setting `Content-Disposition` is always
taken: every response `proxyDownload` builds (both the OPTIONS preflight
and the relayed response) carries the `Content-Disposition` attachment
header naming that filename. -/
theorem claim_C10 (url : String) (req : JsRequest) (t : String) (oracle : FetchOracle)
    (now : Nat) :
    extractFilename url now ≠ "" ∧
      (match (proxyDownload req t oracle now).1 with
      | Except.ok r =>
        hGet r.headers "content-disposition" =
          some (contentDispositionValue (extractFilename t now))
      | Except.error _ => True) := by
  refine ⟨extractFilename_ne_empty url now, ?_⟩
  cases hparse : parseHttpURL t with
  | none =>
    simp only [proxyDownload, hparse]
  | some u =>
    rcases hfetch : fetchWithRetry (oracle (buildUpstreamRequest req t)) 3 with
      ⟨res, n, sl⟩
    cases res with
    | error e =>
      rw [proxyDownload_fetchError req t oracle now u e n sl hparse hfetch]
      exact trivial
    | ok r =>
      by_cases hgood : responseOk r = true ∨ r.status = 206
      · rw [proxyDownload_ok req t oracle now u r n sl hparse hfetch hgood]
        have hcd := brh_contentDisposition r.headers t now
        have hcongr : hGet (buildResponseHeaders r.headers t now) "content-disposition" =
            hGet (buildResponseHeaders r.headers t now) "Content-Disposition" :=
          hGet_congr _ (by decide)
        by_cases hm : req.method = "OPTIONS"
        · rw [if_pos hm]
          exact hcongr.trans hcd
        · rw [if_neg hm]
          exact hcongr.trans hcd
      · have hbad : responseOk r = false ∧ r.status ≠ 206 := by
          push_neg at hgood
          exact ⟨Bool.not_eq_true _ ▸ Bool.eq_false_iff.mpr (by simpa using hgood.1),
            hgood.2⟩
        rw [proxyDownload_badStatus req t oracle now u r n sl hparse hfetch hbad]
        exact trivial

end Worker
